import Mathlib

/-!
Verification development for the MirOptStats synchronization/aggregation engine
(`djangoapp/ozon`).  Python functions from the source tree are shallowly embedded
as executable Lean definitions:

* dynamic (JSON-like) values become the inductive type `PyVal` with Python
  truthiness;
* Python dicts used as partial row updates become functions `String → Option PyVal`
  (a key maps to `some v` exactly when the dict contains it);
* Django model rows (`OzonReportRow`) become the structure `Row`, a report's row
  set becomes a `Store` (`row_key → Option Row`);
* datetimes are represented by their MSK-local timestamp in whole seconds
  (an `Int`); a calendar day is the floor-division of that timestamp by 86400,
  so `"%d.%m.%Y"`-formatted date keys (injective on dates) are modelled by the
  day number itself;
* network responses are supplied by explicit oracle functions, and unbounded
  `while True:` loops take a fuel argument, returning `none` when the fuel is
  exhausted before the loop's own exit conditions fire.
-/

namespace MirOptStats

/-- Dynamic Python value as stored in a report row's JSON `data` field. -/
inductive PyVal where
  | null : PyVal
  | str (s : String) : PyVal
  | int (n : Int) : PyVal
deriving DecidableEq

/-- Python truthiness for `PyVal` (`None`, `""` and `0` are falsy). -/
def PyVal.truthy : PyVal → Bool
  | .null => false
  | .str s => s ≠ ""
  | .int n => n ≠ 0

/-- Python `a or b` on dynamic values. -/
def pyOr (a b : PyVal) : PyVal := if a.truthy then a else b

/-- A partial row update: the Python dict `data` passed for one `row_key` in
`upsert_rows` (`reporting.py`).  A key is in the dict iff the function returns
`some`. -/
def Upd : Type := String → Option PyVal

/-- One `OzonReportRow` of a report: its `row_key`, `sort_key` and JSON `data`
map (`ozon/models.py`); only the fields read or written by `upsert_rows` are
modelled. -/
structure Row where
  row_key : String
  sort_key : PyVal
  data : String → Option PyVal

/-- The rows of one report, keyed by `row_key` (the table has a unique
constraint per `(report, row_key)`). -/
def Store : Type := String → Option Row

/-- Python dict merge of `row.data` with the update (right operand wins per
key, keys absent from the update are preserved). -/
def dictMerge (old new : String → Option PyVal) : String → Option PyVal :=
  fun k => match new k with
    | some v => some v
    | none => old k

/-- The update branch of `upsert_rows` (`reporting.py` lines 52-57): merge the
update into `row.data`; reassign `sort_key` only when the update supplies the
key, via `data["sort_key"] or row.sort_key`. -/
def applyExisting (row : Row) (d : Upd) : Row :=
  { row with
    data := dictMerge row.data d
    sort_key := match d "sort_key" with
      | some v => pyOr v row.sort_key
      | none => row.sort_key }

/-- The create branch of `upsert_rows` (`reporting.py` lines 58-60): a fresh row
whose `data` is the update itself and whose `sort_key` is
`data.get("sort_key", "")`. -/
def mkRow (rowKey : String) (d : Upd) : Row :=
  { row_key := rowKey
    sort_key := (d "sort_key").getD (PyVal.str "")
    data := d }

/-- Decide a row's fate against the snapshot of existing rows taken at the top
of `upsert_rows` (line 48). -/
def processRow (existing : Option Row) (rowKey : String) (d : Upd) : Row :=
  match existing with
  | some row => applyExisting row d
  | none => mkRow rowKey d

/-- Write one processed row back into the store (the effect of the final
`bulk_create` / `bulk_update`on the row set). -/
def storeWrite (st : Store) (k : String) (row : Row) : Store :=
  fun q => if q = k then some row else st q

/-- Loop of `upsert_rows` over `rows.items()`: each row key is looked up in the
snapshot `orig` of the store taken before the loop, and the processed rows are
written back.  Python dict input guarantees distinct keys; the list model keeps
the iteration order. -/
def upsertLoop (orig : Store) : List (String × Upd) → Store → Store
  | [], st => st
  | (k, d) :: rest, st => upsertLoop orig rest (storeWrite st k (processRow (orig k) k d))

/-- `upsert_rows(report, rows)` from `reporting.py` lines 47-64, acting on the
report's row store. -/
def upsert_rows (st : Store) (updates : List (String × Upd)) : Store :=
  upsertLoop st updates st

/-- The last update in the list carrying the given row key, if any (for a
Python dict input, the unique one). -/
def lastUpd : List (String × Upd) → String → Option Upd
  | [], _ => none
  | kd :: rest, q =>
    match lastUpd rest q with
    | some d => some d
    | none => if kd.1 = q then some kd.2 else none

theorem upsertLoop_lookup (orig : Store) (updates : List (String × Upd)) (st : Store)
    (q : String) :
    upsertLoop orig updates st q =
      match lastUpd updates q with
      | some d => some (processRow (orig q) q d)
      | none => st q := by
  induction updates generalizing st with
  | nil => rfl
  | cons kd rest ih =>
    obtain ⟨k, d⟩ := kd
    show upsertLoop orig rest (storeWrite st k (processRow (orig k) k d)) q = _
    rw [ih]
    cases h : lastUpd rest q with
    | some d2 => simp [lastUpd, h]
    | none =>
      simp only [lastUpd, h, storeWrite]
      by_cases hk : k = q
      · subst hk
        simp
      · simp [hk, Ne.symm hk]

theorem upsert_rows_lookup (st : Store) (updates : List (String × Upd)) (q : String) :
    upsert_rows st updates q =
      match lastUpd updates q with
      | some d => some (processRow (st q) q d)
      | none => st q :=
  upsertLoop_lookup st updates st q

/-- Re-applying the same update to the row it produced changes nothing: the
data merge is idempotent and `sort_key = upd or sort_key` is stable. -/
theorem applyExisting_processRow (existing : Option Row) (q : String) (d : Upd) :
    applyExisting (processRow existing q d) d = processRow existing q d := by
  cases existing with
  | some row =>
    show applyExisting (applyExisting row d) d = applyExisting row d
    unfold applyExisting
    congr 1
    · cases hv : d "sort_key" with
      | none => simp
      | some v =>
        simp only [hv]
        unfold pyOr
        by_cases ht : v.truthy
        · simp [ht]
        · simp [ht]
    · funext c
      unfold dictMerge
      cases h : d c <;> simp [h]
  | none =>
    show applyExisting (mkRow q d) d = mkRow q d
    unfold applyExisting mkRow
    congr 1
    · cases hv : d "sort_key" with
      | none => simp
      | some v =>
        simp only [hv, Option.getD_some]
        unfold pyOr
        by_cases ht : v.truthy <;> simp [ht]
    · funext c
      unfold dictMerge
      cases h : d c <;> simp [h]

/-- Applying `upsert_rows` with the same updates a second time does not change
any row of the store. -/
theorem upsert_rows_idem (st : Store) (us : List (String × Upd)) :
    upsert_rows (upsert_rows st us) us = upsert_rows st us := by
  funext q
  rw [upsert_rows_lookup (upsert_rows st us) us q, upsert_rows_lookup st us q]
  cases h : lastUpd us q with
  | none => simp
  | some d =>
    exact congrArg some (applyExisting_processRow (st q) q d)

/-- C2: merge is shallow map union: for every report row store, every row key
holding an existing row, and every partial update, `upsert_rows` leaves the
row's data equal to the right-biased shallow union of the old data and the
update — keys absent from the update are preserved, keys present overwrite. -/
theorem C2_upsert_shallow_union (st : Store) (k : String) (row : Row) (dnew : Upd)
    (h : st k = some row) :
    ∃ row2, upsert_rows st [(k, dnew)] k = some row2 ∧
      ∀ c, row2.data c = match dnew c with
        | some v => some v
        | none => row.data c := by
  refine ⟨applyExisting row dnew, ?_, fun c => rfl⟩
  rw [upsert_rows_lookup st [(k, dnew)] k]
  simp [lastUpd, processRow, h]

/-- Witness for C2 (Scenario B of the spec): starting from an empty store,
upserting data col1 = 1 under row key A and then data col2 = 2 under row key A
leaves row A holding both col1 = 1 and col2 = 2. -/
theorem C2_upsert_shallow_union_witness :
    ∃ row2,
      upsert_rows
        (upsert_rows (fun _ => none)
          [("A", fun c => if c = "col1" then some (PyVal.int 1) else none)])
        [("A", fun c => if c = "col2" then some (PyVal.int 2) else none)] "A" = some row2 ∧
      row2.data "col1" = some (PyVal.int 1) ∧ row2.data "col2" = some (PyVal.int 2) := by
  have hrow : upsert_rows (fun _ => none)
      [("A", fun c => if c = "col1" then some (PyVal.int 1) else none)] "A" =
      some (mkRow "A" (fun c => if c = "col1" then some (PyVal.int 1) else none)) := rfl
  obtain ⟨row2, h1, h2⟩ := C2_upsert_shallow_union _ "A" _
    (fun c => if c = "col2" then some (PyVal.int 2) else none) hrow
  refine ⟨row2, h1, ?_, ?_⟩
  · rw [h2 "col1"]; simp [mkRow]
  · rw [h2 "col2"]; simp

/-- C3: upsert idempotence: for every starting row store and every batch of
partial row updates, applying the same `upsert_rows` call twice yields the same
rows (in particular the same row data) as applying it once. -/
theorem C3_upsert_idempotent (st : Store) (us : List (String × Upd)) :
    upsert_rows (upsert_rows st us) us = upsert_rows st us :=
  upsert_rows_idem st us

/-- C9: a supplied-but-falsy sort_key (empty string or None) is written into
the row's data map but never replaces the stored sort_key field of an existing
row. -/
theorem C9_falsy_sort_key_kept (st : Store) (k : String) (row : Row) (d : Upd)
    (v : PyVal) (h : st k = some row) (hv : d "sort_key" = some v)
    (hfalsy : v = PyVal.null ∨ v = PyVal.str "") :
    ∃ row2, upsert_rows st [(k, d)] k = some row2 ∧
      row2.data "sort_key" = some v ∧ row2.sort_key = row.sort_key := by
  refine ⟨applyExisting row d, ?_, ?_, ?_⟩
  · rw [upsert_rows_lookup st [(k, d)] k]
    simp [lastUpd, processRow, h]
  · show dictMerge row.data d "sort_key" = some v
    unfold dictMerge
    rw [hv]
  · show (match d "sort_key" with
      | some v => pyOr v row.sort_key
      | none => row.sort_key) = row.sort_key
    rw [hv]
    rcases hfalsy with h1 | h1 <;> subst h1 <;> simp [pyOr, PyVal.truthy]

/-- Witness for C9: a row with sort_key old receives an update whose sort_key
is the empty string; the data map records the empty string but the stored
sort_key stays old. -/
theorem C9_falsy_sort_key_kept_witness :
    ∃ row2,
      upsert_rows
        (fun q => if q = "A" then
            some { row_key := "A", sort_key := PyVal.str "old", data := fun _ => none }
          else none)
        [("A", fun c => if c = "sort_key" then some (PyVal.str "") else none)] "A" =
        some row2 ∧
      row2.data "sort_key" = some (PyVal.str "") ∧ row2.sort_key = PyVal.str "old" := by
  obtain ⟨row2, h1, h2, h3⟩ := C9_falsy_sort_key_kept
    (fun q => if q = "A" then
        some { row_key := "A", sort_key := PyVal.str "old", data := fun _ => none }
      else none)
    "A" { row_key := "A", sort_key := PyVal.str "old", data := fun _ => none }
    (fun c => if c = "sort_key" then some (PyVal.str "") else none)
    (PyVal.str "") rfl rfl (Or.inr rfl)
  exact ⟨row2, h1, h2, h3⟩

/-- One sync job of the per-tenant pipeline, as called from `sync_shop`
(tasks.py): a transformer of the tenant's report-store state returning the
state it reached together with the exception that escaped it, if any.  Jobs
are not atomic: every job persists `get_or_create_report` / `ensure_columns`
before its network fetches, and `sync_monitor` interleaves ten `upsert_rows`
calls with fetches — so a job raising midway returns a state that already
contains its earlier writes, paired with `some e`. -/
def Job (σ ε : Type) : Type := σ → σ × Option ε

/-- Execute a statement sequence of job calls exactly as the body of
`sync_shop` does (tasks.py lines 41-62): jobs run in order, every write
persisted before the failure point — by completed jobs and by the failing
job itself — survives, and an exception aborts the remainder of the sequence
and propagates to the caller — there is no try/except in `sync_shop`.
Returns the state reached together with the escaped exception, if any. -/
def runSeq {σ ε : Type} : List (Job σ ε) → σ → σ × Option ε
  | [], s => (s, none)
  | j :: js, s =>
    match j s with
    | (s2, none) => runSeq js s2
    | (s2, some e) => (s2, some e)

/-- `sync_shop(shop_id)` after the credential guard (tasks.py lines 41-62):
the twenty-one sync jobs in order, followed by `merge_monitor_reports` as the
final statement of the same unprotected sequence. -/
def sync_shop {σ ε : Type} (jobs : List (Job σ ε)) (merge : Job σ ε) (s : σ) :
    σ × Option ε :=
  runSeq (jobs ++ [merge]) s

theorem runSeq_append_ok {σ ε : Type} (xs : List (Job σ ε)) (ys : List (Job σ ε))
    (s s2 : σ) (h : runSeq xs s = (s2, none)) :
    runSeq (xs ++ ys) s = runSeq ys s2 := by
  induction xs generalizing s with
  | nil =>
    simp only [runSeq] at h
    cases h
    rfl
  | cons j js ih =>
    simp only [List.cons_append, runSeq] at h ⊢
    cases hj : j s with
    | mk s3 eo =>
      rw [hj] at h
      cases eo with
      | none => exact ih s3 h
      | some e => simp at h

/-- A pipeline job that completes and appends its name to the execution log. -/
def jobLog (name : String) : Job (List String) String :=
  fun s => (s ++ [name], none)

/-- A pipeline job that persists some writes and then raises — the
mutate-then-raise shape of the real jobs, which commit
`get_or_create_report` / `ensure_columns` (and, in `sync_monitor`,
intermediate `upsert_rows` batches) before a fetch can fail. -/
def jobRaiseAfter (writes : List String) (msg : String) : Job (List String) String :=
  fun s => (s ++ writes, some msg)

/-- Counterexample to C1: in `sync_shop` an exception of one job is neither
caught nor logged — it escapes the task, and the remaining sibling jobs and
`merge_monitor_reports` never run: with the second job raising after a partial
write, the execution log ends at that write and the exception propagates. -/
theorem C1_counterexample :
    sync_shop
      [jobLog "sync_monitor", jobRaiseAfter ["orders_fbo_columns"] "boom",
        jobLog "sync_orders_fbs"]
      (jobLog "merge_monitor_reports") [] =
      (["sync_monitor", "orders_fbo_columns"], some "boom") := rfl

/-- C1 (amended): in the per-tenant pipeline `sync_shop`, once any job raises,
the exception propagates out of the task uncaught; every remaining sibling job
and the final `merge_monitor_reports` step are skipped, while all writes
persisted before the failure point — those of the completed jobs and the
failing job's own partial writes — survive. -/
theorem C1_exception_aborts_pipeline {σ ε : Type} (pre post : List (Job σ ε))
    (jfail merge : Job σ ε) (s s2 s3 : σ) (e : ε)
    (hpre : runSeq pre s = (s2, none)) (hfail : jfail s2 = (s3, some e)) :
    sync_shop (pre ++ jfail :: post) merge s = (s3, some e) := by
  unfold sync_shop
  rw [List.append_assoc, List.cons_append]
  rw [runSeq_append_ok pre (jfail :: (post ++ [merge])) s s2 hpre]
  simp only [runSeq, hfail]

/-- Witness for the amended C1: a concrete pipeline where the second job
writes and then raises; `sync_shop` returns the log holding the completed
job's effect and the failing job's partial write, together with the escaped
exception. -/
theorem C1_exception_aborts_pipeline_witness :
    sync_shop
      ([jobLog "sync_monitor"] ++
        jobRaiseAfter ["orders_fbo_columns"] "boom" :: [jobLog "sync_orders_fbs"])
      (jobLog "merge_monitor_reports") [] =
      (["sync_monitor", "orders_fbo_columns"], some "boom") :=
  C1_exception_aborts_pipeline [jobLog "sync_monitor"] [jobLog "sync_orders_fbs"]
    (jobRaiseAfter ["orders_fbo_columns"] "boom") (jobLog "merge_monitor_reports") []
    ["sync_monitor"] ["sync_monitor", "orders_fbo_columns"] "boom" rfl rfl

/-- One response of `/v3/product/list` as read by `OzonClient.list_products`:
the `result.items` batch and the `result.last_id` watermark (the empty string
when absent). -/
structure ProductPage (α : Type) where
  items : List α
  last_id : String

/-- The `while True:` loop of `OzonClient.list_products` (ozon_client.py lines
43-53).  The upstream is an oracle from the request's `last_id` to the
response page; `fuel` bounds the number of iterations we observe, `none`
meaning the loop was still running when the fuel ran out.  Exits: a batch
shorter than `limit`, or a falsy `last_id` in the response — the loop never
compares the new `last_id` with the previous one. -/
def list_products_loop {α : Type} (oracle : String → ProductPage α) (limit : Nat) :
    Nat → String → List α → Option (List α)
  | 0, _, _ => none
  | fuel + 1, lastId, items =>
    let page := oracle lastId
    let items2 := items ++ page.items
    if page.items.length < limit then some items2
    else if page.last_id = "" then some items2
    else list_products_loop oracle limit fuel page.last_id items2

/-- `OzonClient.list_products`: start the loop with `last_id = ""` and no
items. -/
def list_products {α : Type} (oracle : String → ProductPage α) (limit : Nat)
    (fuel : Nat) : Option (List α) :=
  list_products_loop oracle limit fuel "" []

/-- One response of `/v3/supply-order/list` as read by
`OzonClient.supply_order_list`: the `order_ids` batch and the response
`last_id` (the empty string when absent). -/
structure SupplyPage where
  order_ids : List Int
  last_id : String

/-- The `while True:` loop of `OzonClient.supply_order_list` (ozon_client.py
lines 158-176).  Exits: empty batch; falsy new `last_id`; new `last_id` equal
to the previous one (the repeated-cursor guard); or a batch shorter than
`limit`. -/
def supply_order_list_loop (oracle : String → SupplyPage) (limit : Nat) :
    Nat → String → List Int → Option (List Int)
  | 0, _, _ => none
  | fuel + 1, lastId, items =>
    let page := oracle lastId
    if page.order_ids = [] then some items
    else
      let items2 := items ++ page.order_ids
      if page.last_id = "" ∨ page.last_id = lastId ∨ page.order_ids.length < limit then
        some items2
      else supply_order_list_loop oracle limit fuel page.last_id items2

/-- `OzonClient.supply_order_list`: start the loop with `last_id = ""` and no
items. -/
def supply_order_list (oracle : String → SupplyPage) (limit : Nat) (fuel : Nat) :
    Option (List Int) :=
  supply_order_list_loop oracle limit fuel "" []

/-- The `while True:` loop of `OzonClient.returns_list` (ozon_client.py lines
185-207).  Items are modelled by their integer `id` (0 standing for a missing
or unparseable id); the next watermark is the last item's id.  Exits: empty
batch, or falsy (zero) watermark — there is no repeated-cursor guard and no
short-page check. -/
def returns_list_loop (oracle : Int → List Int) : Nat → Int → List Int → Option (List Int)
  | 0, _, _ => none
  | fuel + 1, lastId, items =>
    let batch := oracle lastId
    if batch = [] then some items
    else
      let items2 := items ++ batch
      let lastId2 := batch.getLast?.getD 0
      if lastId2 = 0 then some items2
      else returns_list_loop oracle fuel lastId2 items2

/-- `OzonClient.returns_list`: start the loop with `last_id = 0` and no
items. -/
def returns_list (oracle : Int → List Int) (fuel : Nat) : Option (List Int) :=
  returns_list_loop oracle fuel 0 []

theorem list_products_loop_adversarial_none (fuel : Nat) :
    ∀ lastId items,
      list_products_loop (fun _ => ProductPage.mk [(), ()] "c2") 2 fuel lastId items =
        none := by
  induction fuel with
  | zero => intro lastId items; rfl
  | succ f ih =>
    intro lastId items
    show list_products_loop _ 2 f "c2" (items ++ [(), ()]) = none
    exact ih "c2" (items ++ [(), ()])

/-- Counterexample to C5: `OzonClient.list_products` does not detect a
repeated `last_id`: against an upstream that forever answers a full-length
page carrying the same non-empty `last_id` `"c2"`, the loop never reaches any
of its exit conditions — no finite iteration bound suffices — instead of
stopping when the cursor repeats across two consecutive calls. -/
theorem C5_counterexample :
    ¬ ∃ fuel, (list_products (fun _ => ProductPage.mk [(), ()] "c2") 2 fuel).isSome := by
  rintro ⟨fuel, hsome⟩
  rw [show list_products (fun _ => ProductPage.mk [(), ()] "c2") 2 fuel = none from
    list_products_loop_adversarial_none fuel "" []] at hsome
  exact Bool.noConfusion hsome

theorem supply_order_list_loop_const_isSome (oracle : String → SupplyPage)
    (limit : Nat) (c : String) (hconst : ∀ s, (oracle s).last_id = c)
    (fuel : Nat) (lastId : String) (items : List Int) :
    (supply_order_list_loop oracle limit (fuel + 2) lastId items).isSome := by
  show (let page := oracle lastId
    if page.order_ids = [] then some items
    else
      let items2 := items ++ page.order_ids
      if page.last_id = "" ∨ page.last_id = lastId ∨ page.order_ids.length < limit then
        some items2
      else supply_order_list_loop oracle limit (fuel + 1) page.last_id items2).isSome
  by_cases h1 : (oracle lastId).order_ids = []
  · simp [h1]
  · simp only [h1, if_false]
    by_cases h2 : (oracle lastId).last_id = "" ∨ (oracle lastId).last_id = lastId ∨
        (oracle lastId).order_ids.length < limit
    · simp [h2]
    · simp only [h2, if_false]
      show (let page := oracle (oracle lastId).last_id
        if page.order_ids = [] then some (items ++ (oracle lastId).order_ids)
        else
          let items2 := (items ++ (oracle lastId).order_ids) ++ page.order_ids
          if page.last_id = "" ∨ page.last_id = (oracle lastId).last_id ∨
              page.order_ids.length < limit then
            some items2
          else supply_order_list_loop oracle limit fuel page.last_id items2).isSome
      by_cases h3 : (oracle (oracle lastId).last_id).order_ids = []
      · simp [h3]
      · have hrep : (oracle (oracle lastId).last_id).last_id = (oracle lastId).last_id := by
          rw [hconst (oracle lastId).last_id, hconst lastId]
        simp [h3, hrep]

/-- C5 (amended): the repeated-cursor guard exists only in
`supply_order_list`: against any upstream whose responses always carry one and
the same `last_id`, its loop stops within two iterations (the guard
`new_last_id == last_id` fires, or another exit does first).  `list_products`
has no such guard (see the counterexample), and neither does `returns_list`:
against an upstream that forever answers the one-item batch with id 7, the
`returns_list` loop never terminates. -/
theorem C5_supply_repeat_detected :
    (∀ (oracle : String → SupplyPage) (limit : Nat) (c : String),
        (∀ s, (oracle s).last_id = c) → ∀ fuel, 2 ≤ fuel →
          (supply_order_list oracle limit fuel).isSome) ∧
    (∀ fuel, returns_list (fun _ => [7]) fuel = none) := by
  constructor
  · intro oracle limit c hconst fuel hfuel
    obtain ⟨f, rfl⟩ : ∃ f, fuel = f + 2 := ⟨fuel - 2, by omega⟩
    exact supply_order_list_loop_const_isSome oracle limit c hconst f "" []
  · intro fuel
    suffices h : ∀ fuel lastId items,
        returns_list_loop (fun _ => [7]) fuel lastId items = none from h fuel 0 []
    intro fuel2
    induction fuel2 with
    | zero => intro lastId items; rfl
    | succ f ih =>
      intro lastId items
      show returns_list_loop (fun _ => [7]) f 7 (items ++ [7]) = none
      exact ih 7 (items ++ [7])

/-- Witness for the amended C5: a concrete upstream answering full pages with
the constant `last_id` `"c2"` makes `supply_order_list` terminate with fuel 2,
and `returns_list` against the repeating batch [7] is still running after 3
iterations. -/
theorem C5_supply_repeat_detected_witness :
    (supply_order_list (fun _ => SupplyPage.mk [1, 2] "c2") 2 2).isSome ∧
      returns_list (fun _ => [7]) 3 = none :=
  ⟨C5_supply_repeat_detected.1 (fun _ => SupplyPage.mk [1, 2] "c2") 2 "c2"
      (fun _ => rfl) 2 (by omega),
    C5_supply_repeat_detected.2 3⟩

/-- The `result` object of `/v1/report/info` as consumed by `sync_storage`:
only its `"file"` member is read (`info.get("file")`). -/
structure ReportInfo where
  file : Option String

/-- The report-generation consumption in `sync_storage` (extra_sync.py lines
219-226): after `report_create_placement` returns a code, `report_info(code)`
is called exactly once; if that single response carries no file URL the job
returns, otherwise the URL is downloaded.  `infoSeq k` is the upstream's k-th
info response for the code; the result pairs the downloaded file URL (if any)
with the number of info polls made. -/
def sync_storage_report_phase (infoSeq : Nat → ReportInfo) : Option String × Nat :=
  ((infoSeq 0).file, 1)

/-- Counterexample to C8: a report that is still pending on the first
`info(code)` response but has a file URL from the second poll on is abandoned
by `sync_storage` after its single poll — nothing is downloaded even though
polling once more would have succeeded. -/
theorem C8_counterexample :
    sync_storage_report_phase
        (fun k => if k = 0 then ReportInfo.mk none else ReportInfo.mk (some "u")) =
      (none, 1) ∧
    (if (1 : Nat) = 0 then ReportInfo.mk none else ReportInfo.mk (some "u")).file =
      some "u" :=
  ⟨rfl, rfl⟩

/-- C8 (amended): after `create(params)` returns a code, `sync_storage`
queries `info(code)` exactly once; when that sole response carries a file URL
the file is downloaded, and otherwise the job gives up without polling again —
there is no polling loop, and the response status is never examined. -/
theorem C8_single_poll (infoSeq : Nat → ReportInfo) :
    (sync_storage_report_phase infoSeq).2 = 1 ∧
    ((infoSeq 0).file = none → (sync_storage_report_phase infoSeq).1 = none) ∧
    (∀ u, (infoSeq 0).file = some u → (sync_storage_report_phase infoSeq).1 = some u) :=
  ⟨rfl, fun h => h, fun _ h => h⟩

/-- Witness for the amended C8: with a first response that already carries a
file URL, the phase downloads it after its one poll. -/
theorem C8_single_poll_witness :
    (sync_storage_report_phase (fun _ => ReportInfo.mk (some "u"))).2 = 1 ∧
      (sync_storage_report_phase (fun _ => ReportInfo.mk (some "u"))).1 = some "u" :=
  ⟨(C8_single_poll (fun _ => ReportInfo.mk (some "u"))).1,
    (C8_single_poll (fun _ => ReportInfo.mk (some "u"))).2.2 "u" rfl⟩

/-- Python `chr(ord("A") + r)` for the digit remainders `r < 26` produced by
`_index_to_col`, modelled by the alphabet table. -/
def colChar (r : Nat) : Char :=
  "ABCDEFGHIJKLMNOPQRSTUVWXYZ".toList.getD r 'A'

/-- Whitespace as removed by Python `str.strip()` (ASCII code points). -/
def pyIsSpace (c : Char) : Bool :=
  c.toNat = 32 ∨ c.toNat = 9 ∨ c.toNat = 10 ∨ c.toNat = 13 ∨ c.toNat = 11 ∨ c.toNat = 12

/-- Python `str.strip()` on the character list: drop leading and trailing
whitespace. -/
def pyStripChars (cs : List Char) : List Char :=
  ((cs.dropWhile pyIsSpace).reverse.dropWhile pyIsSpace).reverse

/-- Python `str.strip()` on a string. -/
def pyStrip (s : String) : String := ⟨pyStripChars s.data⟩

/-- Python `str.upper()` on one ASCII character: map a-z to A-Z, keep the
rest. -/
def pyUpperChar (c : Char) : Char :=
  if 97 ≤ c.toNat ∧ c.toNat ≤ 122 then Char.ofNat (c.toNat - 32) else c

/-- The digit loop of `_col_to_index` (orders_sync.py lines 72-75,
monitor_sync.py lines 13-17): fold `n = n * 26 + (ord(ch) - ord("A") + 1)`
over the characters, failing (`ValueError`) on any character outside A-Z. -/
def colToIndexGo : List Char → Nat → Option Nat
  | [], n => some n
  | c :: cs, n =>
    if 65 ≤ c.toNat ∧ c.toNat ≤ 90 then colToIndexGo cs (n * 26 + (c.toNat - 65 + 1))
    else none

/-- `_col_to_index(col)` (orders_sync.py lines 69-76, monitor_sync.py lines
11-18): strip and uppercase the input, fold the bijective base-26 digits,
return `n - 1`; `none` models the raised `ValueError`. -/
def col_to_index (col : String) : Option Int :=
  (colToIndexGo ((pyStripChars col.data).map pyUpperChar) 0).map (fun n => (n : Int) - 1)

/-- The `while n > 0` loop of `_index_to_col` (orders_sync.py lines 83-86,
monitor_sync.py lines 35-38): `n, r = divmod(n - 1, 26); s = chr(ord("A") + r) + s`. -/
def indexToColGo (n : Nat) (s : List Char) : List Char :=
  if n = 0 then s
  else indexToColGo ((n - 1) / 26) (colChar ((n - 1) % 26) :: s)
termination_by n
decreasing_by
  have h1 : (n - 1) / 26 ≤ n - 1 := Nat.div_le_self _ _
  omega

/-- `_index_to_col(idx)` (orders_sync.py lines 79-87, monitor_sync.py lines
31-39): the loop started at `n = idx + 1` with the empty string; the `idx < 0`
guard is modelled by the `Nat` domain. -/
def index_to_col (idx : Nat) : String :=
  ⟨indexToColGo (idx + 1) []⟩

theorem colChar_toNat (r : Nat) (h : r < 26) : (colChar r).toNat = 65 + r := by
  interval_cases r <;> rfl

theorem indexToColGo_zero (s : List Char) : indexToColGo 0 s = s := by
  rw [indexToColGo]
  simp

theorem indexToColGo_pos (n : Nat) (s : List Char) (h : n ≠ 0) :
    indexToColGo n s = indexToColGo ((n - 1) / 26) (colChar ((n - 1) % 26) :: s) := by
  rw [indexToColGo]
  exact if_neg h

theorem colToIndexGo_cons (c : Char) (cs : List Char) (a : Nat) :
    colToIndexGo (c :: cs) a =
      if 65 ≤ c.toNat ∧ c.toNat ≤ 90 then colToIndexGo cs (a * 26 + (c.toNat - 65 + 1))
      else none := rfl

theorem indexToColGo_eq_append (n : Nat) :
    ∀ s, indexToColGo n s = indexToColGo n [] ++ s := by
  induction n using Nat.strong_induction_on with
  | _ n ih =>
    intro s
    by_cases h : n = 0
    · subst h
      rw [indexToColGo_zero, indexToColGo_zero]
      simp
    · have hlt : (n - 1) / 26 < n := by
        have h1 : (n - 1) / 26 ≤ n - 1 := Nat.div_le_self _ _
        omega
      rw [indexToColGo_pos n s h, indexToColGo_pos n [] h]
      rw [ih _ hlt (colChar ((n - 1) % 26) :: s), ih _ hlt [colChar ((n - 1) % 26)]]
      simp

theorem indexToColGo_chars (n : Nat) :
    ∀ c ∈ indexToColGo n [], 65 ≤ c.toNat ∧ c.toNat ≤ 90 := by
  induction n using Nat.strong_induction_on with
  | _ n ih =>
    intro c hc
    by_cases h : n = 0
    · subst h
      rw [indexToColGo_zero] at hc
      simp at hc
    · have hlt : (n - 1) / 26 < n := by
        have h1 : (n - 1) / 26 ≤ n - 1 := Nat.div_le_self _ _
        omega
      rw [indexToColGo_pos n [] h, indexToColGo_eq_append] at hc
      rcases List.mem_append.mp hc with h2 | h2
      · exact ih _ hlt c h2
      · have hr : (n - 1) % 26 < 26 := Nat.mod_lt _ (by omega)
        rw [List.mem_singleton] at h2
        subst h2
        rw [colChar_toNat _ hr]
        omega

theorem colToIndexGo_append (xs ys : List Char) (a : Nat) :
    colToIndexGo (xs ++ ys) a =
      match colToIndexGo xs a with
      | some b => colToIndexGo ys b
      | none => none := by
  induction xs generalizing a with
  | nil => rfl
  | cons c cs ih =>
    show colToIndexGo (c :: (cs ++ ys)) a = _
    rw [colToIndexGo_cons, colToIndexGo_cons]
    by_cases h : 65 ≤ c.toNat ∧ c.toNat ≤ 90
    · rw [if_pos h, if_pos h, ih]
    · rw [if_neg h, if_neg h]

theorem colToIndexGo_digits (n : Nat) (hn : 0 < n) :
    ∀ a, colToIndexGo (indexToColGo n []) a =
      some (a * 26 ^ (indexToColGo n []).length + n) := by
  induction n using Nat.strong_induction_on with
  | _ n ih =>
    intro a
    have hne : n ≠ 0 := by omega
    have hr : (n - 1) % 26 < 26 := Nat.mod_lt _ (by omega)
    have hch : (colChar ((n - 1) % 26)).toNat = 65 + (n - 1) % 26 := colChar_toNat _ hr
    have hguard : 65 ≤ (colChar ((n - 1) % 26)).toNat ∧ (colChar ((n - 1) % 26)).toNat ≤ 90 := by
      rw [hch]; omega
    have hsplit : n = 26 * ((n - 1) / 26) + (n - 1) % 26 + 1 := by
      have := Nat.div_add_mod (n - 1) 26
      omega
    rw [indexToColGo_pos n [] hne, indexToColGo_eq_append]
    by_cases hm : (n - 1) / 26 = 0
    · rw [hm, indexToColGo_zero]
      simp only [List.nil_append, List.length_cons, List.length_nil]
      rw [colToIndexGo_cons, if_pos hguard]
      show some (a * 26 + ((colChar ((n - 1) % 26)).toNat - 65 + 1)) = _
      rw [hch]
      rw [hm] at hsplit
      simp only [Nat.mul_zero, Nat.zero_add] at hsplit
      rw [pow_one]
      congr 1
      omega
    · have hlt : (n - 1) / 26 < n := by
        have h1 : (n - 1) / 26 ≤ n - 1 := Nat.div_le_self _ _
        omega
      rw [colToIndexGo_append]
      rw [ih _ hlt (by omega) a]
      show colToIndexGo [colChar ((n - 1) % 26)]
          (a * 26 ^ (indexToColGo ((n - 1) / 26) []).length + (n - 1) / 26) =
        some (a * 26 ^ (indexToColGo ((n - 1) / 26) [] ++ [colChar ((n - 1) % 26)]).length + n)
      rw [colToIndexGo_cons, if_pos hguard]
      show some ((a * 26 ^ (indexToColGo ((n - 1) / 26) []).length + (n - 1) / 26) * 26 +
          ((colChar ((n - 1) % 26)).toNat - 65 + 1)) = _
      rw [List.length_append, List.length_cons, List.length_nil, hch]
      have hpow : 26 ^ ((indexToColGo ((n - 1) / 26) []).length + (0 + 1)) =
          26 ^ (indexToColGo ((n - 1) / 26) []).length * 26 := by
        rw [Nat.zero_add, pow_succ]
      rw [hpow]
      congr 1
      generalize 26 ^ (indexToColGo ((n - 1) / 26) []).length = L
      have hgoal : (a * L + (n - 1) / 26) * 26 + (65 + (n - 1) % 26 - 65 + 1) =
          a * (L * 26) + (26 * ((n - 1) / 26) + (n - 1) % 26 + 1) := by
        have h65 : 65 + (n - 1) % 26 - 65 = (n - 1) % 26 := by omega
        rw [h65]
        ring
      rw [hgoal]
      omega

theorem pyUpperChar_fixed (c : Char) (h : 65 ≤ c.toNat ∧ c.toNat ≤ 90) :
    pyUpperChar c = c := by
  unfold pyUpperChar
  rw [if_neg]
  omega

theorem dropWhile_of_forall_not (p : Char → Bool) (cs : List Char)
    (h : ∀ c ∈ cs, ¬p c) : cs.dropWhile p = cs := by
  cases cs with
  | nil => rfl
  | cons c rest =>
    rw [List.dropWhile_cons]
    simp [h c (List.mem_cons_self c rest)]

theorem pyStripChars_of_forall (cs : List Char)
    (h : ∀ c ∈ cs, 65 ≤ c.toNat ∧ c.toNat ≤ 90) : pyStripChars cs = cs := by
  have hns : ∀ c ∈ cs, ¬pyIsSpace c := by
    intro c hc
    have := h c hc
    unfold pyIsSpace
    simp only [decide_eq_true_eq]
    omega
  unfold pyStripChars
  rw [dropWhile_of_forall_not _ _ hns]
  rw [dropWhile_of_forall_not _ _ (by intro c hc; exact hns c (List.mem_reverse.mp hc))]
  exact List.reverse_reverse cs

/-- C10: the spreadsheet column codec round-trips: for every index `i ≥ 0`,
`_col_to_index(_index_to_col(i)) = i`, so the opaque column-key namespace is
injective and stable. -/
theorem C10_col_codec_round_trip (i : Nat) :
    col_to_index (index_to_col i) = some (i : Int) := by
  unfold col_to_index index_to_col
  have hchars := indexToColGo_chars (i + 1)
  show (colToIndexGo ((pyStripChars (indexToColGo (i + 1) [])).map pyUpperChar) 0).map
      (fun n => (n : Int) - 1) = some (i : Int)
  rw [pyStripChars_of_forall _ hchars]
  rw [show (indexToColGo (i + 1) []).map pyUpperChar = indexToColGo (i + 1) [] from
    List.map_congr_left (fun c hc => pyUpperChar_fixed c (hchars c hc)) |>.trans
      (List.map_id _)]
  rw [colToIndexGo_digits (i + 1) (by omega) 0]
  show some (((0 * 26 ^ (indexToColGo (i + 1) []).length + (i + 1) : Nat) : Int) - 1) =
    some (i : Int)
  congr 1
  push_cast
  ring

/-- Calendar day of an MSK-local timestamp in seconds: Python `.date()` on the
datetime, represented by the day number (floor division, so pre-epoch times
work too). -/
def dayOf (t : Int) : Int := t.fdiv 86400

/-- Python `str.lower()` on one ASCII character (A-Z to a-z, the rest kept). -/
def pyLowerChar (c : Char) : Char :=
  if 65 ≤ c.toNat ∧ c.toNat ≤ 90 then Char.ofNat (c.toNat + 32) else c

/-- Python `str.lower()` (ASCII part, all statuses here are ASCII). -/
def pyLower (s : String) : String := ⟨s.data.map pyLowerChar⟩

/-- `DAYS_WINDOW` (orders_sync.py line 29). -/
def DAYS_WINDOW : Nat := 28

/-- `PERIOD_COLUMNS_FBO` (orders_sync.py line 31), in dict order. -/
def PERIOD_COLUMNS_FBO : List (String × Int) :=
  [("FY", 7), ("GA", 14), ("GC", 28), ("GE", 60), ("GG", 90)]

/-- `DELIVERED_COLUMNS_FBO` (orders_sync.py line 32), in dict order. -/
def DELIVERED_COLUMNS_FBO : List (String × Int) :=
  [("GO", 30), ("GP", 60), ("GQ", 90)]

/-- One entry of a posting's `products` list: `offer_id` (the empty string
models a falsy or missing one) and `quantity`. -/
structure FboProduct where
  offer_id : String
  quantity : Int

/-- One FBO posting as consumed by `_aggregate_fbo`: `in_process_at` is the
result of `_to_msk_dt` on the raw string — the parsed MSK timestamp in
seconds, or `none` when parsing fails — together with `status` and
`products`. -/
structure FboPosting where
  in_process_at : Option Int
  status : String
  products : List FboProduct

/-- Output of `_aggregate_fbo` (source returns the tuple `(date_headers,
date_keys, day_counts_by_offer, delivered_counts_by_col,
period_counts_by_col)`, lines 138 and 174).  The `"%d.%m"` headers and
`"%d.%m.%Y"` keys are both represented by the calendar day number (the key
format is injective on dates); per-column counters are total functions
defaulting to 0 (the `defaultdict(int)` view). -/
structure FboAgg where
  date_headers : List Int
  date_keys : List Int
  day_counts_by_offer : String → Option (List Int)
  delivered_counts_by_col : String → String → Int
  period_counts_by_col : String → String → Int

/-- Mutable state of the `_aggregate_fbo` loop. -/
structure FboAcc where
  day_counts_by_offer : String → Option (List Int)
  period_counts_by_col : String → String → Int
  delivered_counts_by_col : String → String → Int

/-- Initial loop state of `_aggregate_fbo` (lines 142-144): empty day-count
dict, zeroed per-column counters. -/
def fboInit : FboAcc := ⟨fun _ => none, fun _ _ => 0, fun _ _ => 0⟩

/-- `counts[col][offer] += qty` on a per-column counter. -/
def bumpCol (f : String → String → Int) (col offer : String) (q : Int) :
    String → String → Int :=
  fun c o => if c = col ∧ o = offer then f c o + q else f c o

/-- `day_counts_by_offer[offer] = v`. -/
def updDay (f : String → Option (List Int)) (offer : String) (v : List Int) :
    String → Option (List Int) :=
  fun o => if o = offer then some v else f o

/-- Body of the inner `for pr in p.get("products")` loop of `_aggregate_fbo`
(lines 155-172): skip falsy offers; ensure the day vector exists; bump the day
cell when the posting's date key is inside the 28-day window; when
`0 <= delta_days <= 365`, bump every period column with
`delta_days <= days - 1` and, for postings whose lowercased status is
`"delivered"`, every delivered column likewise. -/
def fboProductStep (todayMsk dMsk : Int) (idx : Option Nat) (status : String)
    (acc : FboAcc) (pr : FboProduct) : FboAcc :=
  let offer := pyStrip pr.offer_id
  let qty := pr.quantity
  if offer = "" then acc
  else
    let dayC :=
      match acc.day_counts_by_offer offer with
      | none => updDay acc.day_counts_by_offer offer (List.replicate DAYS_WINDOW 0)
      | some _ => acc.day_counts_by_offer
    let dayC :=
      match idx with
      | some i =>
        match dayC offer with
        | some v => updDay dayC offer (v.set i (v.getD i 0 + qty))
        | none => dayC
      | none => dayC
    let delta := todayMsk - dMsk
    if 0 ≤ delta ∧ delta ≤ 365 then
      let periodC := PERIOD_COLUMNS_FBO.foldl
        (fun f cd => if delta ≤ cd.2 - 1 then bumpCol f cd.1 offer qty else f)
        acc.period_counts_by_col
      let delivC :=
        if pyLower status = "delivered" then
          DELIVERED_COLUMNS_FBO.foldl
            (fun f cd => if delta ≤ cd.2 - 1 then bumpCol f cd.1 offer qty else f)
            acc.delivered_counts_by_col
        else acc.delivered_counts_by_col
      ⟨dayC, periodC, delivC⟩
    else ⟨dayC, acc.period_counts_by_col, acc.delivered_counts_by_col⟩

/-- Body of the outer `for p in postings` loop of `_aggregate_fbo` (lines
148-172): postings with unparseable `in_process_at` are skipped; otherwise the
posting's MSK calendar day and window index drive the product loop. -/
def fboPostingStep (todayMsk : Int) (keyToIdx : Int → Option Nat)
    (acc : FboAcc) (p : FboPosting) : FboAcc :=
  match p.in_process_at with
  | none => acc
  | some t => p.products.foldl (fboProductStep todayMsk (dayOf t) (keyToIdx (dayOf t)) p.status) acc

/-- `_aggregate_fbo(postings, run_started_msk)` (orders_sync.py lines
138-174).  `_build_date_headers` yields the 28 calendar days ending at the
anchor's day; `key_to_idx` is position in that list (the dict and
`List.indexOf?` agree because the keys are distinct). -/
def aggregate_fbo (postings : List FboPosting) (runStartedMsk : Int) : FboAgg :=
  let dateKeys := (List.range DAYS_WINDOW).reverse.map (fun i => dayOf runStartedMsk - i)
  let keyToIdx : Int → Option Nat := fun d => dateKeys.indexOf? d
  let todayMsk := dayOf runStartedMsk
  let acc := postings.foldl (fboPostingStep todayMsk keyToIdx) fboInit
  ⟨dateKeys, dateKeys, acc.day_counts_by_offer, acc.delivered_counts_by_col,
    acc.period_counts_by_col⟩

/-- One prepared FBS order as consumed by `_aggregate_fbs` (built by
`_prepare_fbs_orders`): MSK timestamp in seconds, the precomputed `"%d.%m"`
date key (taken opaque, as the aggregator does), status, products and total
quantity. -/
structure PreppedOrder where
  msk_dt : Int
  date_key : String
  status : String
  products : List FboProduct
  total_qty : Int

/-- Output of `_aggregate_fbs` (source tuple `(dates, daily_total,
daily_by_offer, totals_by_period, delivered_by_period)`, lines 221 and 256);
dicts become total functions defaulting to 0, the `"%d.%m"` output labels are
represented by their day numbers. -/
structure FbsAgg where
  dates : List Int
  daily_total : String → Int
  daily_by_offer : String → String → Int
  totals_by_period : Int → String → Int
  delivered_by_period : Int → String → Int

/-- Mutable state of the `_aggregate_fbs` loop. -/
structure FbsAcc where
  daily_total : String → Int
  daily_by_offer : String → String → Int
  totals_by_period : Int → String → Int
  delivered_by_period : Int → String → Int

/-- Initial loop state of `_aggregate_fbs` (lines 228-231). -/
def fbsInit : FbsAcc := ⟨fun _ => 0, fun _ _ => 0, fun _ _ => 0, fun _ _ => 0⟩

/-- `m[k] = m.get(k, 0) + q` on a string-keyed counter. -/
def bumpStr (f : String → Int) (k : String) (q : Int) : String → Int :=
  fun x => if x = k then f x + q else f x

/-- `m[a][b] += q` on a counter keyed by two strings. -/
def bump2Str (f : String → String → Int) (k1 k2 : String) (q : Int) :
    String → String → Int :=
  fun a b => if a = k1 ∧ b = k2 then f a b + q else f a b

/-- `m[d][offer] += q` on a period-keyed counter. -/
def bumpIntStr (f : Int → String → Int) (d : Int) (k : String) (q : Int) :
    Int → String → Int :=
  fun a b => if a = d ∧ b = k then f a b + q else f a b

/-- `order_periods` (orders_sync.py line 223). -/
def order_periods : List Int := [7, 14, 28, 60, 90]

/-- `delivered_periods` (orders_sync.py line 224). -/
def delivered_periods : List Int := [30, 60, 90]

/-- Body of the inner `for p in o["products"]` loop of `_aggregate_fbs`
(lines 239-253): skip falsy offers; bump the per-day counter; bump every
order-period bucket whose half-open window `starts[d] <= mdt < end` contains
the order's timestamp; when the status is exactly `"delivered"`, bump the
delivered buckets likewise. -/
def fbsProductStep (starts : Int → Int) (endT : Int) (o : PreppedOrder)
    (acc : FbsAcc) (p : FboProduct) : FbsAcc :=
  if p.offer_id = "" then acc
  else
    let offer := p.offer_id
    let qty := p.quantity
    let acc := { acc with daily_by_offer := bump2Str acc.daily_by_offer offer o.date_key qty }
    let tp := order_periods.foldl
      (fun f d => if starts d ≤ o.msk_dt ∧ o.msk_dt < endT then bumpIntStr f d offer qty else f)
      acc.totals_by_period
    let acc := { acc with totals_by_period := tp }
    if o.status = "delivered" then
      let dp := delivered_periods.foldl
        (fun f d => if starts d ≤ o.msk_dt ∧ o.msk_dt < endT then bumpIntStr f d offer qty else f)
        acc.delivered_by_period
      { acc with delivered_by_period := dp }
    else acc

/-- Body of the outer `for o in prepped_orders` loop of `_aggregate_fbs`
(lines 233-253). -/
def fbsOrderStep (starts : Int → Int) (endT : Int) (acc : FbsAcc) (o : PreppedOrder) : FbsAcc :=
  let acc := { acc with daily_total := bumpStr acc.daily_total o.date_key o.total_qty }
  o.products.foldl (fbsProductStep starts endT o) acc

/-- `_aggregate_fbs(prepped_orders)` (orders_sync.py lines 221-256).  The
function reads the wall clock at entry — `now0 =
datetime.now(MSK_TZ).replace(hour=0, ...)` — which is modelled by the extra
argument `nowMsk`, the clock value the call happens to observe; `now0` is its
MSK midnight.  `starts[d] = now0 - (d-1) days`, `end = now0 + 1 day`. -/
def aggregate_fbs (prepped : List PreppedOrder) (nowMsk : Int) : FbsAgg :=
  let now0 : Int := 86400 * dayOf nowMsk
  let starts : Int → Int := fun d => now0 - (d - 1) * 86400
  let endT : Int := now0 + 86400
  let acc := prepped.foldl (fbsOrderStep starts endT) fbsInit
  let dates := (List.range 28).reverse.map (fun i => dayOf nowMsk - i)
  ⟨dates, acc.daily_total, acc.daily_by_offer, acc.totals_by_period, acc.delivered_by_period⟩

/-- One posting as consumed by `_aggregate_by_offer`: `created_at` is the
parsed `created_at or in_process_at` UTC timestamp in seconds (`none` when
missing or unparseable), plus the products. -/
structure OfferPosting where
  created_at : Option Int
  products : List FboProduct

/-- `_aggregate_by_offer(postings, days_windows)` (orders_sync.py lines
289-309).  The clock read `now = datetime.now(timezone.utc)` at entry is the
extra argument `now`.  Result maps each seen offer to its bucket dict; a
bucket `"orders_d"` is bumped when `dt >= now - timedelta(days=d)` — a pure
timestamp comparison, not a calendar-day delta; `quantity or 1` maps a zero
(falsy) quantity to 1. -/
def aggregate_by_offer (postings : List OfferPosting) (days_windows : List Int)
    (now : Int) : String → Option (String → Int) :=
  postings.foldl (fun result p =>
    match p.created_at with
    | none => result
    | some dt =>
      p.products.foldl (fun result2 prod =>
        let offer := pyStrip prod.offer_id
        if offer = "" then result2
        else
          let r0 := (result2 offer).getD (fun _ => 0)
          let qty : Int := if prod.quantity = 0 then 1 else prod.quantity
          let r2 := days_windows.foldl (fun r d =>
            if now - d * 86400 ≤ dt then bumpStr r ("orders_" ++ toString d) qty else r) r0
          fun q => if q = offer then some r2 else result2 q) result)
    (fun _ => none)

/-- Counterexample to C4: `_aggregate_fbs` reads the wall clock at the start
of its computation (`now0 = datetime.now(MSK_TZ)...`, orders_sync.py line
222); with the very same prepared order list, two calls observing different
clock values return different period sums — the output is not a function of
the event list alone, so the FBS aggregator is not clock-free. -/
theorem C4_counterexample :
    aggregate_fbs [⟨100 * 86400 + 43200, "dk", "s", [⟨"X", 5⟩], 5⟩] (100 * 86400 + 600) ≠
      aggregate_fbs [⟨100 * 86400 + 43200, "dk", "s", [⟨"X", 5⟩], 5⟩] (200 * 86400 + 600) := by
  intro h
  have h2 : (aggregate_fbs [⟨100 * 86400 + 43200, "dk", "s", [⟨"X", 5⟩], 5⟩]
        (100 * 86400 + 600)).totals_by_period 7 "X" =
      (aggregate_fbs [⟨100 * 86400 + 43200, "dk", "s", [⟨"X", 5⟩], 5⟩]
        (200 * 86400 + 600)).totals_by_period 7 "X" :=
    congrArg (fun r => r.totals_by_period 7 "X") h
  have e1 : (aggregate_fbs [⟨100 * 86400 + 43200, "dk", "s", [⟨"X", 5⟩], 5⟩]
      (100 * 86400 + 600)).totals_by_period 7 "X" = 5 := by decide
  have e2 : (aggregate_fbs [⟨100 * 86400 + 43200, "dk", "s", [⟨"X", 5⟩], 5⟩]
      (200 * 86400 + 600)).totals_by_period 7 "X" = 0 := by decide
  rw [e1, e2] at h2
  exact absurd h2 (by decide)

/-- C4 (amended): `_aggregate_fbo` is a pure function of its event list and
anchor argument — equal inputs give equal outputs — while `_aggregate_fbs`
reads the MSK clock once at entry and depends on that read only through the
clock's calendar day: two calls on the same event list whose clock reads fall
on the same MSK day produce identical outputs (calls on different days may
differ, see the counterexample). -/
theorem C4_determinism_modulo_clock_day :
    (∀ (p1 p2 : List FboPosting) (a1 a2 : Int), p1 = p2 → a1 = a2 →
        aggregate_fbo p1 a1 = aggregate_fbo p2 a2) ∧
    (∀ (os : List PreppedOrder) (t1 t2 : Int), dayOf t1 = dayOf t2 →
        aggregate_fbs os t1 = aggregate_fbs os t2) := by
  constructor
  · intro p1 p2 a1 a2 hp ha
    rw [hp, ha]
  · intro os t1 t2 h
    simp only [aggregate_fbs]
    rw [h]

/-- Witness for the amended C4: two FBS runs on the same order list with
different clock reads falling on the same MSK day agree. -/
theorem C4_determinism_modulo_clock_day_witness :
    aggregate_fbo [] 0 = aggregate_fbo [] 0 ∧
      aggregate_fbs [⟨100 * 86400 + 43200, "dk", "s", [⟨"X", 5⟩], 5⟩] (100 * 86400 + 600) =
        aggregate_fbs [⟨100 * 86400 + 43200, "dk", "s", [⟨"X", 5⟩], 5⟩] (100 * 86400 + 999) :=
  ⟨C4_determinism_modulo_clock_day.1 [] [] 0 0 rfl rfl,
    C4_determinism_modulo_clock_day.2 [⟨100 * 86400 + 43200, "dk", "s", [⟨"X", 5⟩], 5⟩]
      (100 * 86400 + 600) (100 * 86400 + 999) (by decide)⟩

/-- Counterexample to C6: `_aggregate_by_offer` does not use the calendar-day
delta.  An event whose timestamp lies 7 calendar days before the anchor
(`delta_days = 7 = P`) but less than `7 * 24` hours before it is counted in
the `orders_7` bucket (quantity 5 instead of the 0 the claim requires for
`delta_days = P`). -/
theorem C6_counterexample :
    (aggregate_by_offer [⟨some (93 * 86400 + 64800), [⟨"X", 5⟩]⟩] [7]
        (100 * 86400 + 43200) "X").map (fun f => f "orders_7") = some 5 ∧
      dayOf (100 * 86400 + 43200) - dayOf (93 * 86400 + 64800) = 7 ∧
      ¬((0 : Int) ≤ 7 ∧ (7 : Int) ≤ 7 - 1) := by
  refine ⟨by decide, by decide, by decide⟩

set_option maxHeartbeats 1000000 in
/-- C6 (amended): the inclusive calendar-day boundary `0 ≤ delta_days ≤ P-1`
characterises the period sums of `_aggregate_fbo` (first part); but
`_aggregate_by_offer` counts an event in its `orders_d` bucket exactly when
the raw timestamp comparison `dt >= now - d days` holds (second part), which
is a sliding timestamp window, not a calendar-day rule — an event with
`delta_days = P` can still be counted (see the counterexample). -/
theorem C6_period_boundary :
    (∀ (col : String) (P : Int) (offer status : String) (qty t anchor : Int),
        (col, P) ∈ PERIOD_COLUMNS_FBO → pyStrip offer ≠ "" →
        (aggregate_fbo [⟨some t, status, [⟨offer, qty⟩]⟩] anchor).period_counts_by_col col
            (pyStrip offer) =
          if 0 ≤ dayOf anchor - dayOf t ∧ dayOf anchor - dayOf t ≤ P - 1 then qty else 0) ∧
    (∀ (offer : String) (qty dt now d : Int), pyStrip offer ≠ "" →
        (aggregate_by_offer [⟨some dt, [⟨offer, qty⟩]⟩] [d] now (pyStrip offer)).map
            (fun f => f ("orders_" ++ toString d)) =
          some (if now - d * 86400 ≤ dt then (if qty = 0 then 1 else qty) else 0)) := by
  constructor
  · intro col P offer status qty t anchor hmem hoffer
    simp only [PERIOD_COLUMNS_FBO, List.mem_cons, List.not_mem_nil, or_false,
      List.mem_singleton] at hmem
    rcases hmem with ⟨rfl, rfl⟩ | ⟨rfl, rfl⟩ | ⟨rfl, rfl⟩ | ⟨rfl, rfl⟩ | ⟨rfl, rfl⟩ <;>
      (simp only [aggregate_fbo, fboPostingStep, List.foldl_cons, List.foldl_nil,
        fboProductStep, hoffer, if_false, PERIOD_COLUMNS_FBO, DELIVERED_COLUMNS_FBO, fboInit]
       generalize dayOf anchor - dayOf t = del
       by_cases h0 : 0 ≤ del ∧ del ≤ 365
       · simp only [if_pos h0]
         split_ifs <;> simp [bumpCol] <;> omega
       · simp only [if_neg h0]
         rw [if_neg (by omega)])
  · intro offer qty dt now d hoffer
    simp only [aggregate_by_offer, List.foldl_cons, List.foldl_nil, hoffer, if_false]
    simp
    split_ifs with h1 <;> simp [bumpStr]

/-- Witness for the amended C6: an event 6 calendar days old is included in
the 7-day FBO period sum, and an event inside the raw 7-day timestamp window
is counted by `_aggregate_by_offer`. -/
theorem C6_period_boundary_witness :
    (aggregate_fbo [⟨some (94 * 86400), "s", [⟨"X", 3⟩]⟩]
        (100 * 86400)).period_counts_by_col "FY" (pyStrip "X") = 3 ∧
      (aggregate_by_offer [⟨some (94 * 86400), [⟨"X", 3⟩]⟩] [7]
        (100 * 86400) (pyStrip "X")).map (fun f => f ("orders_" ++ toString 7)) = some 3 := by
  constructor
  · have h := C6_period_boundary.1 "FY" 7 "X" "s" 3 (94 * 86400) (100 * 86400)
      (by simp [PERIOD_COLUMNS_FBO]) (by decide)
    rw [h]
    decide
  · have h := C6_period_boundary.2 "X" 3 (94 * 86400) (100 * 86400) 7 (by decide)
    exact h.trans (by decide)

/-- Counterexample to C7: `_aggregate_fbs` compares the status with
`"delivered"` case-sensitively (orders_sync.py line 250): an in-window event
with status Delivered contributes 0 to every delivered sum while the same
event with status delivered contributes its quantity — upper-cased statuses
are not counted the same. -/
theorem C7_counterexample :
    (aggregate_fbs [⟨100 * 86400 + 43200, "dk", "Delivered", [⟨"X", 5⟩], 5⟩]
        (100 * 86400 + 600)).delivered_by_period 30 "X" = 0 ∧
      (aggregate_fbs [⟨100 * 86400 + 43200, "dk", "delivered", [⟨"X", 5⟩], 5⟩]
        (100 * 86400 + 600)).delivered_by_period 30 "X" = 5 := by
  refine ⟨by decide, by decide⟩

theorem delivered_fold_eval (n mdt qty : Int) (offer : String) (f : Int → String → Int)
    (P : Int) (hP : P ∈ delivered_periods) :
    (delivered_periods.foldl
      (fun g d => if n - (d - 1) * 86400 ≤ mdt ∧ mdt < n + 86400 then bumpIntStr g d offer qty
        else g) f) P offer =
      f P offer + (if n - (P - 1) * 86400 ≤ mdt ∧ mdt < n + 86400 then qty else 0) := by
  simp only [delivered_periods, List.mem_cons, List.not_mem_nil, or_false,
    List.mem_singleton] at hP
  rcases hP with rfl | rfl | rfl <;>
    (simp only [delivered_periods, List.foldl_cons, List.foldl_nil]
     split_ifs <;> simp [bumpIntStr])

set_option maxHeartbeats 1000000 in
/-- C7 (amended): delivered-only filtering is case-insensitive in
`_aggregate_fbo` — a single in-window event is counted exactly when
`status.lower() == "delivered"` — but case-sensitive in `_aggregate_fbs`,
which counts an event exactly when its status is literally the lowercase
string `"delivered"`. -/
theorem C7_delivered_filter :
    (∀ (col : String) (P : Int) (offer status : String) (qty t anchor : Int),
        (col, P) ∈ DELIVERED_COLUMNS_FBO → pyStrip offer ≠ "" →
        (aggregate_fbo [⟨some t, status, [⟨offer, qty⟩]⟩] anchor).delivered_counts_by_col col
            (pyStrip offer) =
          if (0 ≤ dayOf anchor - dayOf t ∧ dayOf anchor - dayOf t ≤ P - 1) ∧
              pyLower status = "delivered" then qty else 0) ∧
    (∀ (offer status dk : String) (qty mdt tq nowMsk P : Int), offer ≠ "" →
        P ∈ delivered_periods →
        (aggregate_fbs [⟨mdt, dk, status, [⟨offer, qty⟩], tq⟩] nowMsk).delivered_by_period P
            offer =
          if status = "delivered" ∧ (86400 * dayOf nowMsk - (P - 1) * 86400 ≤ mdt ∧
              mdt < 86400 * dayOf nowMsk + 86400) then qty else 0) := by
  constructor
  · intro col P offer status qty t anchor hmem hoffer
    simp only [DELIVERED_COLUMNS_FBO, List.mem_cons, List.not_mem_nil, or_false,
      List.mem_singleton] at hmem
    rcases hmem with ⟨rfl, rfl⟩ | ⟨rfl, rfl⟩ | ⟨rfl, rfl⟩ <;>
      (simp only [aggregate_fbo, fboPostingStep, List.foldl_cons, List.foldl_nil,
        fboProductStep, hoffer, if_false, PERIOD_COLUMNS_FBO, DELIVERED_COLUMNS_FBO, fboInit]
       generalize dayOf anchor - dayOf t = del
       by_cases h0 : 0 ≤ del ∧ del ≤ 365
       · simp only [if_pos h0]
         by_cases hs : pyLower status = "delivered"
         · simp only [hs, eq_self_iff_true, and_true, if_true]
           split_ifs <;> simp [bumpCol] <;> omega
         · rw [if_neg hs]
           simp only [hs, and_false, if_false]
       · simp only [if_neg h0]
         rw [if_neg (by omega)])
  · intro offer status dk qty mdt tq nowMsk P hoffer hP
    simp only [aggregate_fbs, fbsOrderStep, fbsProductStep, List.foldl_cons, List.foldl_nil,
      hoffer, if_false]
    by_cases hs : status = "delivered"
    · simp only [hs, true_and, if_true]
      rw [delivered_fold_eval _ _ _ _ _ P hP]
      simp [fbsInit]
    · rw [if_neg hs]
      simp [fbsInit, hs]

/-- Witness for the amended C7: an upper-cased DELIVERED FBO posting is
counted in the 30-day delivered column, while the FBS delivered bucket counts
the exact lowercase status. -/
theorem C7_delivered_filter_witness :
    (aggregate_fbo [⟨some (100 * 86400), "DELIVERED", [⟨"X", 4⟩]⟩]
        (100 * 86400)).delivered_counts_by_col "GO" (pyStrip "X") = 4 ∧
      (aggregate_fbs [⟨100 * 86400, "dk", "delivered", [⟨"X", 5⟩], 5⟩]
        (100 * 86400)).delivered_by_period 30 "X" = 5 := by
  constructor
  · have h := C7_delivered_filter.1 "GO" 30 "X" "DELIVERED" 4 (100 * 86400) (100 * 86400)
      (by simp [DELIVERED_COLUMNS_FBO]) (by decide)
    rw [h]
    decide
  · have h := C7_delivered_filter.2 "X" "delivered" "dk" 5 (100 * 86400) 5 (100 * 86400) 30
      (by decide) (by simp [delivered_periods])
    rw [h]
    decide

end MirOptStats
